import Mathlib

/-!
Verification development for the `keystore` package of chainbridge-utils
(`src/keystore/keystore.go`), centred on `KeypairFromAddress`.

Byte slices are modelled as `List Nat`; the external collaborators of
`KeypairFromAddress` (file stat, `GetPassword`, `hash.HashPasswordIteratively`,
`ReadFromFileAndDecrypt`, `insecureKeypairFromAddress`) are fields of an
environment record, so theorems quantify over their behaviour.  Go's multiple
return values `(kp, key, err)` become triples with `Option` components (a Go
`nil` interface or pointer is `none`).  Calling a method on a `nil` interface
value panics in Go; the model records that as the `panicked` outcome.
-/

namespace Keystore

/-- Byte slices (`[]byte`) are lists of naturals. -/
abbrev Bytes := List Nat

/-- Errors that can flow through the retrieval pipeline (Go `error` values). -/
inductive KsError where
  | notFound (path : String)
  | emptyPassword
  | derivationError
  | integrityError
  | unsupportedKeyType (tag : String)
  | other (msg : String)
deriving DecidableEq

/-- Opaque model of a live `crypto.Keypair` (owns its private material). -/
structure KeyPair where
  priv : Bytes
deriving DecidableEq

/-- Opaque model of a `*memguard.Enclave`. -/
structure Enclave where
  data : Bytes
deriving DecidableEq

/-- Observable calls `KeypairFromAddress` makes, in order.  `envReadCall`
would be an `os.Getenv` lookup; the function never performs one. -/
inductive Event where
  | statCall (path : String)
  | getPasswordCall (prompt : String)
  | envReadCall (name : String)
  | hashCall (pswd : Bytes)
  | readDecryptCall (path : String) (keyMaterial : Bytes) (keyType : String)
  | insecureCall (path : String) (chainType : String)
  | deleteCall
deriving DecidableEq

/-- The external collaborators of `KeypairFromAddress`, as pure functions.
Go's `(a, b, err)` returns become triples whose nilable components are
`Option`s. -/
structure Env where
  fileExists : String → Bool
  getPassword : String → Bytes
  hashPasswordIteratively : Bytes → Bytes × Bytes × Option KsError
  readFromFileAndDecrypt : String → Bytes → String → Option KeyPair × Option Enclave × Option KsError
  insecureKeypairFromAddress : String → String → Option KeyPair × Option Enclave × Option KsError

/-- How a run of `KeypairFromAddress` ends: a normal return of the Go triple,
or a runtime panic. -/
inductive Outcome where
  | ret (kp : Option KeyPair) (key : Option Enclave) (e : Option KsError)
  | panicked (msg : String)
deriving DecidableEq

/-- Result of running `KeypairFromAddress`: the outcome together with the
final contents of the three local secret buffers and the event trace. -/
structure RunResult where
  outcome : Outcome
  pswd : Bytes
  hshPwd : Bytes
  salt : Bytes
  events : List Event
deriving DecidableEq

/-- `const EnvPassword = "KEYSTORE_PASSWORD"` from the source. -/
def EnvPassword : String := "KEYSTORE_PASSWORD"

/-- The `keyMapping` map literal from the source. -/
def keyMapping : List (String × String) :=
  [("ethereum", "secp256k1"), ("substrate", "sr25519")]

/-- Go map indexing `m[k]`: a missing key yields the zero value `""`. -/
def mapIndex (m : List (String × String)) (k : String) : String :=
  match m.find? (fun p => p.fst == k) with
  | some p => p.snd
  | none => ""

/-- The Go zeroing loop `for i := 0; i < len(b); i++ { b[i] = 0 }`. -/
def zeroBytes (b : Bytes) : Bytes := b.map (fun _ => 0)

/-- Every byte of the buffer is zero. -/
def allZero (b : Bytes) : Prop := ∀ x ∈ b, x = 0

/-- `var pswd []byte` — a nil slice before the `if pswd == nil` check. -/
def pswdInitial : Option Bytes := none

/-- `fmt.Sprintf("%s/%s.key", path, addr)` from the source. -/
def keyFilePath (path addr : String) : String := path ++ "/" ++ addr ++ ".key"

/-- `fmt.Sprintf("Enter password for key %s:", path)` from the source. -/
def promptFor (path : String) : String := "Enter password for key " ++ path ++ ":"

/-- Line-by-line model of `KeypairFromAddress(addr, chainType, path, insecure)`
from `src/keystore/keystore.go`.  Local slice mutation is modelled by
shadowing; the final values of `pswd`, `hshPwd` and `salt` are returned in the
`RunResult`.  In the `ReadFromFileAndDecrypt` error branch the source calls
`kp.DeleteKeyPair()`; when `kp` is the nil interface that call panics, which
the model records as `Outcome.panicked`. -/
def KeypairFromAddress (env : Env) (addr chainType path : String) (insecure : Bool) : RunResult :=
  if insecure then
    let r := env.insecureKeypairFromAddress path chainType
    { outcome := .ret r.1 r.2.1 r.2.2, pswd := [], hshPwd := [], salt := [],
      events := [.insecureCall path chainType] }
  else
    let path := keyFilePath path addr
    if env.fileExists path = false then
      { outcome := .ret none none (some (.notFound path)), pswd := [], hshPwd := [], salt := [],
        events := [.statCall path] }
    else
      let pswd :=
        match pswdInitial with
        | none => env.getPassword (promptFor path)
        | some p => p
      let h := env.hashPasswordIteratively pswd
      let events0 := [Event.statCall path, Event.getPasswordCall (promptFor path),
        Event.hashCall pswd]
      let pswd := zeroBytes pswd
      match h.2.2 with
      | some e =>
        { outcome := .ret none none (some e), pswd := pswd,
          hshPwd := zeroBytes h.1, salt := zeroBytes h.2.1, events := events0 }
      | none =>
        let hshPwd := h.1 ++ h.2.1
        let salt := zeroBytes h.2.1
        let r := env.readFromFileAndDecrypt path hshPwd (mapIndex keyMapping chainType)
        let events1 := events0 ++
          [Event.readDecryptCall path hshPwd (mapIndex keyMapping chainType)]
        let hshPwd := zeroBytes hshPwd
        match r.2.2 with
        | some e =>
          match r.1 with
          | none =>
            { outcome := .panicked "runtime error: invalid memory address or nil pointer dereference",
              pswd := pswd, hshPwd := hshPwd, salt := salt, events := events1 }
          | some _ =>
            { outcome := .ret none none (some e), pswd := pswd, hshPwd := hshPwd, salt := salt,
              events := events1 ++ [Event.deleteCall] }
        | none =>
          { outcome := .ret r.1 r.2.1 none, pswd := pswd, hshPwd := hshPwd, salt := salt,
            events := events1 }

/-- One mixing step of the toy iterated hash used by the spec-modelled
key-derivation and cipher primitives. -/
def hashStep (acc b : Nat) : Nat := (acc * 131 + b + 17) % 256

/-- Iterating `hashStep`, the "deliberately slow, iterated" part of the KDF. -/
def hashIterate : Nat → Nat → Nat
  | 0, x => x
  | n + 1, x => hashStep (hashIterate n x) 1

/-- The KDF cost parameter, a compile-time constant shared by both paths. -/
def hashCost : Nat := 8

/-- Length of a derived key. -/
def derivedKeyLen : Nat := 32

/-- Length of a salt produced by the KDF. -/
def saltLen : Nat := 8

/-- Modelled from the spec: `KeyDerivation.derive` — the body of
`hash.HashPasswordIteratively` is not under `src/`.  The spec says derivation
turns the password and salt into a fixed-length key via a deliberately slow,
iterated hash with a compile-time cost constant. -/
def deriveKey (pswd salt : Bytes) : Bytes :=
  (List.range derivedKeyLen).map
    (fun i => hashIterate hashCost ((pswd ++ salt ++ [i]).foldl hashStep 0))

/-- The fixed salt standing in for the KDF's fresh random salt. -/
def specSalt : Bytes := [1, 2, 3, 4, 5, 6, 7, 8]

/-- Modelled from the spec: `hash.HashPasswordIteratively` is not under
`src/`.  Per the spec it derives `(key, salt)` from the password with the
iterated hash and "fails with DerivationError if the password is empty";
randomness of the salt is modelled by the fixed `specSalt`. -/
def hashPasswordIterativelySpec (pswd : Bytes) : Bytes × Bytes × Option KsError :=
  if pswd = [] then ([], [], some .derivationError)
  else (deriveKey pswd specSalt, specSalt, none)

/-- Byte-wise XOR of two buffers (truncating to the shorter). -/
def xorBytes (a b : Bytes) : Bytes := List.zipWith (fun x y => x ^^^ y) a b

/-- Length of the cipher nonce. -/
def nonceLen : Nat := 12

/-- Length of the integrity tag. -/
def macLen : Nat := 16

/-- The cipher's version/algorithm tag byte. -/
def versionByte : Nat := 1

/-- The nonce derived from a fresh-randomness seed. -/
def nonceOf (seed : Nat) : Bytes :=
  (List.range nonceLen).map (fun i => (seed + 31 * i) % 256)

/-- Keystream of `n` bytes under `key` and `nonce`. -/
def keystream (key nonce : Bytes) (n : Nat) : Bytes :=
  (List.range n).map (fun i => (key ++ nonce ++ [i]).foldl hashStep 3)

/-- Integrity tag over the encrypted payload. -/
def macTag (key nonce payload : Bytes) : Bytes :=
  (List.range macLen).map (fun i => (key ++ nonce ++ payload ++ [i]).foldl hashStep 5)

/-- Modelled from the spec: `CipherCodec.encrypt` is not under `src/`.  Per
the spec the ciphertext is self-describing: a fixed-size header (version tag,
nonce) followed by the encrypted payload and an integrity tag; the fresh
nonce per call is modelled by the `nonceSeed` parameter. -/
def encrypt (plaintext key : Bytes) (nonceSeed : Nat) : Bytes :=
  let nonce := nonceOf nonceSeed
  let payload := xorBytes plaintext (keystream key nonce plaintext.length)
  versionByte :: (nonce ++ (payload ++ macTag key nonce payload))

/-- Modelled from the spec: `CipherCodec.decrypt` is not under `src/`.  Per
the spec it parses the self-describing ciphertext and "fails closed with
IntegrityError when the tag does not verify", never returning
partially-decrypted bytes.  Returns the Go-style pair `(plaintext, err)`. -/
def decrypt (ciphertext key : Bytes) : Option Bytes × Option KsError :=
  match ciphertext with
  | [] => (none, some .integrityError)
  | v :: rest =>
    if v = versionByte then
      let nonce := rest.take nonceLen
      let body := rest.drop nonceLen
      if macLen ≤ body.length then
        let payload := body.take (body.length - macLen)
        let tag := body.drop (body.length - macLen)
        if tag = macTag key nonce payload then
          (some (xorBytes payload (keystream key nonce payload.length)), none)
        else (none, some .integrityError)
      else (none, some .integrityError)
    else (none, some .integrityError)

/-- Modelled from the spec: on-disk `KeyRecord` binding
{key-type tag, public key bytes, address bytes, ciphertext}. -/
structure KeyRecord where
  keyType : String
  publicKey : Bytes
  address : Bytes
  ciphertext : Bytes
deriving DecidableEq

/-- The key-type tags with a registered implementation. -/
def supportedKeyTypes : List String := ["secp256k1", "sr25519"]

/-- A concrete password for the sample key store. -/
def specPassword : Bytes := [99, 111, 114, 114, 101, 99, 116]

/-- A concrete plaintext private key for the sample key store. -/
def specPlaintext : Bytes := [21, 22, 23, 24, 25, 26, 27, 28]

/-- The sample on-disk record: `specPlaintext` encrypted under the key
derived from `specPassword` and `specSalt`. -/
def specRecord : KeyRecord :=
  { keyType := "secp256k1", publicKey := [7, 7, 7], address := [10, 11, 12],
    ciphertext := encrypt specPlaintext (deriveKey specPassword specSalt) 42 }

/-- The sample file store: one key file for address `0xABC`. -/
def specStore : String → Option KeyRecord :=
  fun p => if p = "keys/0xABC.key" then some specRecord else none

/-- Modelled from the spec: `ReadFromFileAndDecrypt` is not under `src/`.
Per the spec it reads the record at `path`, rejects key-type tags without a
registered implementation with `UnsupportedKeyType` (and tag mismatches
likewise), and decrypts the ciphertext with the supplied key material (the
derived key with the salt appended; the trailing `saltLen` bytes are the
salt).  On failure it returns the Go convention `(nil, nil, err)`: no partial
key pair is ever returned. -/
def readFromFileAndDecryptSpec (path : String) (keyMaterial : Bytes) (keytype : String) :
    Option KeyPair × Option Enclave × Option KsError :=
  if supportedKeyTypes.contains keytype = false then
    (none, none, some (.unsupportedKeyType keytype))
  else
    match specStore path with
    | none => (none, none, some (.notFound path))
    | some r =>
      if (r.keyType == keytype) = false then
        (none, none, some (.unsupportedKeyType keytype))
      else
        let dk := keyMaterial.take (keyMaterial.length - saltLen)
        match decrypt r.ciphertext dk with
        | (some pt, _) => (some ⟨pt⟩, some ⟨dk⟩, none)
        | (none, e) => (none, none, e)

/-- Modelled from the spec: `insecureKeypairFromAddress` is not under
`src/`.  Per the spec it loads a well-known unencrypted test fixture for the
chain type, and tags without a registered implementation are rejected. -/
def insecureKeypairFromAddressSpec (path chainType : String) :
    Option KeyPair × Option Enclave × Option KsError :=
  if chainType = "ethereum" then (some ⟨[61, 62, 63]⟩, none, none)
  else if chainType = "substrate" then (some ⟨[71, 72, 73]⟩, none, none)
  else (none, none, some (.unsupportedKeyType chainType))

/-- A concrete environment built from the spec-modelled collaborators, with
the correct password supplied. -/
def specEnv : Env :=
  { fileExists := fun p => p == "keys/0xABC.key"
    getPassword := fun _ => specPassword
    hashPasswordIteratively := hashPasswordIterativelySpec
    readFromFileAndDecrypt := readFromFileAndDecryptSpec
    insecureKeypairFromAddress := insecureKeypairFromAddressSpec }

/-- `specEnv` with a wrong password supplied at the prompt. -/
def wrongPwdEnv : Env :=
  { specEnv with getPassword := fun _ => [119, 114, 111, 110, 103] }

/-- `specEnv` with an empty password supplied at the prompt. -/
def emptyPwdEnv : Env :=
  { specEnv with getPassword := fun _ => [] }

lemma allZero_zeroBytes (b : Bytes) : allZero (zeroBytes b) := by
  intro x hx
  simp only [zeroBytes, List.mem_map] at hx
  obtain ⟨a, _, h⟩ := hx
  exact h.symm

lemma allZero_nil : allZero ([] : Bytes) := by
  intro x hx
  simp at hx

lemma xorBytes_cancel (a b : Bytes) (h : a.length ≤ b.length) :
    xorBytes (xorBytes a b) b = a := by
  induction a generalizing b with
  | nil => simp [xorBytes]
  | cons x xs ih =>
    cases b with
    | nil => simp at h
    | cons y ys =>
      have h2 : xs.length ≤ ys.length := by simpa using h
      simp only [xorBytes, List.zipWith_cons_cons]
      rw [Nat.xor_cancel_right]
      have h3 := ih ys h2
      simp only [xorBytes] at h3
      rw [h3]

lemma macTag_length (key nonce payload : Bytes) :
    (macTag key nonce payload).length = macLen := by
  simp [macTag]

lemma decrypt_wellformed (key nonce payload : Bytes) (hn : nonce.length = nonceLen) :
    decrypt (versionByte :: (nonce ++ (payload ++ macTag key nonce payload))) key =
      (some (xorBytes payload (keystream key nonce payload.length)), none) := by
  simp [decrypt, List.take_left' hn, List.drop_left' hn, macTag_length,
    List.take_left, List.drop_left]

/-- Claim C3: for every plaintext private key `P`, password `W` (and salt and
nonce seed), decrypting the ciphertext produced by encrypting `P` under the
key derived from `W` with the recorded salt yields exactly `P`. -/
theorem decrypt_encrypt_roundtrip (P W salt : Bytes) (seed : Nat) :
    decrypt (encrypt P (deriveKey W salt) seed) (deriveKey W salt) = (some P, none) := by
  have hks : (keystream (deriveKey W salt) (nonceOf seed) P.length).length = P.length := by
    simp [keystream]
  have hp : (xorBytes P (keystream (deriveKey W salt) (nonceOf seed) P.length)).length
      = P.length := by
    simp [xorBytes, hks]
  have hn : (nonceOf seed).length = nonceLen := by simp [nonceOf]
  show decrypt (versionByte ::
      (nonceOf seed ++
        (xorBytes P (keystream (deriveKey W salt) (nonceOf seed) P.length) ++
          macTag (deriveKey W salt) (nonceOf seed)
            (xorBytes P (keystream (deriveKey W salt) (nonceOf seed) P.length)))))
      (deriveKey W salt) = (some P, none)
  rw [decrypt_wellformed _ _ _ hn, hp, xorBytes_cancel P _ hks.ge]

/-- Claim C1: for every environment, address, chain type and directory, when
`insecure = false` and the key file exists (so a password is acquired and
derivation is attempted), the run of `KeypairFromAddress` leaves the password
buffer, the derived-key hash buffer and the salt buffer containing only zero
bytes — on every outcome, error paths and the panic path included. -/
theorem keypairFromAddress_zeroes_buffers (env : Env) (addr chainType path : String)
    (hex : env.fileExists (keyFilePath path addr) = true) :
    allZero (KeypairFromAddress env addr chainType path false).pswd ∧
    allZero (KeypairFromAddress env addr chainType path false).hshPwd ∧
    allZero (KeypairFromAddress env addr chainType path false).salt := by
  refine ⟨?_, ?_, ?_⟩ <;>
  · simp only [KeypairFromAddress, Bool.false_eq_true, if_false, hex, Bool.true_eq_false,
      pswdInitial]
    split <;> try split <;> try split
    all_goals exact allZero_zeroBytes _

/-- Concrete instance of `keypairFromAddress_zeroes_buffers`: the sample
store, address `0xABC`, with the wrong password (a failing retrieval). -/
theorem keypairFromAddress_zeroes_buffers_witness :
    wrongPwdEnv.fileExists (keyFilePath "keys" "0xABC") = true ∧
    (allZero (KeypairFromAddress wrongPwdEnv "0xABC" "ethereum" "keys" false).pswd ∧
     allZero (KeypairFromAddress wrongPwdEnv "0xABC" "ethereum" "keys" false).hshPwd ∧
     allZero (KeypairFromAddress wrongPwdEnv "0xABC" "ethereum" "keys" false).salt) :=
  ⟨by decide, keypairFromAddress_zeroes_buffers wrongPwdEnv "0xABC" "ethereum" "keys" (by decide)⟩

/-- Claim C4: with `insecure = false` and no key file for the requested
address, `KeypairFromAddress` returns the not-found error and `GetPassword`
is never invoked. -/
theorem keypairFromAddress_notFound_before_password (env : Env) (addr chainType path : String)
    (hne : env.fileExists (keyFilePath path addr) = false) :
    (KeypairFromAddress env addr chainType path false).outcome =
      .ret none none (some (.notFound (keyFilePath path addr))) ∧
    ∀ prompt, Event.getPasswordCall prompt ∉
      (KeypairFromAddress env addr chainType path false).events := by
  simp [KeypairFromAddress, hne]

/-- Concrete instance of `keypairFromAddress_notFound_before_password`:
address `0xDEF` was never stored. -/
theorem keypairFromAddress_notFound_before_password_witness :
    specEnv.fileExists (keyFilePath "keys" "0xDEF") = false ∧
    (KeypairFromAddress specEnv "0xDEF" "ethereum" "keys" false).outcome =
      .ret none none (some (.notFound (keyFilePath "keys" "0xDEF"))) ∧
    Event.getPasswordCall (promptFor (keyFilePath "keys" "0xDEF")) ∉
      (KeypairFromAddress specEnv "0xDEF" "ethereum" "keys" false).events := by
  have h := keypairFromAddress_notFound_before_password specEnv "0xDEF" "ethereum" "keys"
    (by decide)
  exact ⟨by decide, h.1, h.2 (promptFor (keyFilePath "keys" "0xDEF"))⟩

/-- Claim C5: with `insecure = false`, an existing key file and an empty
password from `GetPassword`, the retrieval fails with `DerivationError`
(the spec-modelled `HashPasswordIteratively` rejects empty passwords) and no
decryption is ever attempted. -/
theorem keypairFromAddress_empty_password_rejected (env : Env) (addr chainType path : String)
    (hex : env.fileExists (keyFilePath path addr) = true)
    (hpw : env.getPassword (promptFor (keyFilePath path addr)) = [])
    (hhash : env.hashPasswordIteratively = hashPasswordIterativelySpec) :
    (KeypairFromAddress env addr chainType path false).outcome =
      .ret none none (some .derivationError) ∧
    ∀ p k t, Event.readDecryptCall p k t ∉
      (KeypairFromAddress env addr chainType path false).events := by
  simp [KeypairFromAddress, hex, hpw, hhash, hashPasswordIterativelySpec, pswdInitial]

/-- Concrete instance of `keypairFromAddress_empty_password_rejected`: the
sample store with an empty password supplied at the prompt. -/
theorem keypairFromAddress_empty_password_rejected_witness :
    emptyPwdEnv.fileExists (keyFilePath "keys" "0xABC") = true ∧
    emptyPwdEnv.getPassword (promptFor (keyFilePath "keys" "0xABC")) = [] ∧
    (KeypairFromAddress emptyPwdEnv "0xABC" "ethereum" "keys" false).outcome =
      .ret none none (some .derivationError) ∧
    Event.readDecryptCall (keyFilePath "keys" "0xABC") [] "secp256k1" ∉
      (KeypairFromAddress emptyPwdEnv "0xABC" "ethereum" "keys" false).events := by
  have h := keypairFromAddress_empty_password_rejected emptyPwdEnv "0xABC" "ethereum" "keys"
    (by decide) (by decide) rfl
  exact ⟨by decide, by decide, h.1, h.2 (keyFilePath "keys" "0xABC") [] "secp256k1"⟩

/-- Claim C6: with `insecure = true` the result is exactly that of the
test-fixture provider `insecureKeypairFromAddress` and the only observable
call is to that provider (no stat, no file read, no password prompt); with
`insecure = false` the fixture provider is never invoked. -/
theorem keypairFromAddress_insecure_separation (env : Env) (addr chainType path : String) :
    ((KeypairFromAddress env addr chainType path true).outcome =
        .ret (env.insecureKeypairFromAddress path chainType).1
          (env.insecureKeypairFromAddress path chainType).2.1
          (env.insecureKeypairFromAddress path chainType).2.2 ∧
      (KeypairFromAddress env addr chainType path true).events =
        [.insecureCall path chainType]) ∧
    ∀ p ct, Event.insecureCall p ct ∉
      (KeypairFromAddress env addr chainType path false).events := by
  refine ⟨⟨by simp [KeypairFromAddress], by simp [KeypairFromAddress]⟩, ?_⟩
  intro p ct
  simp only [KeypairFromAddress, Bool.false_eq_true, if_false, pswdInitial]
  split <;> try split <;> try split <;> try split
  all_goals simp

/-- Claim C8: whenever `HashPasswordIteratively` returns an error, the
function zeroes the derived-key hash buffer and the salt buffer, returns that
error unmodified, and never attempts decryption. -/
theorem keypairFromAddress_hash_error_path (env : Env) (addr chainType path : String)
    (hb sb : Bytes) (e : KsError)
    (hex : env.fileExists (keyFilePath path addr) = true)
    (hh : env.hashPasswordIteratively
        (env.getPassword (promptFor (keyFilePath path addr))) = (hb, sb, some e)) :
    (KeypairFromAddress env addr chainType path false).outcome = .ret none none (some e) ∧
    (KeypairFromAddress env addr chainType path false).hshPwd = zeroBytes hb ∧
    (KeypairFromAddress env addr chainType path false).salt = zeroBytes sb ∧
    allZero (KeypairFromAddress env addr chainType path false).hshPwd ∧
    allZero (KeypairFromAddress env addr chainType path false).salt ∧
    ∀ p k t, Event.readDecryptCall p k t ∉
      (KeypairFromAddress env addr chainType path false).events := by
  refine ⟨?_, ?_, ?_, ?_, ?_, ?_⟩ <;>
    simp [KeypairFromAddress, hex, pswdInitial, hh, allZero_zeroBytes]

/-- Concrete instance of `keypairFromAddress_hash_error_path`: the empty
password makes the spec-modelled KDF fail with `DerivationError`. -/
theorem keypairFromAddress_hash_error_path_witness :
    emptyPwdEnv.fileExists (keyFilePath "keys" "0xABC") = true ∧
    emptyPwdEnv.hashPasswordIteratively
      (emptyPwdEnv.getPassword (promptFor (keyFilePath "keys" "0xABC"))) =
      ([], [], some .derivationError) ∧
    (KeypairFromAddress emptyPwdEnv "0xABC" "substrate" "keys" false).outcome =
      .ret none none (some .derivationError) ∧
    allZero (KeypairFromAddress emptyPwdEnv "0xABC" "substrate" "keys" false).hshPwd ∧
    allZero (KeypairFromAddress emptyPwdEnv "0xABC" "substrate" "keys" false).salt := by
  have h := keypairFromAddress_hash_error_path emptyPwdEnv "0xABC" "substrate" "keys"
    [] [] .derivationError (by decide) (by decide)
  exact ⟨by decide, by decide, h.1, h.2.2.2.1, h.2.2.2.2.1⟩

/-- Claim C9: whenever derivation succeeds, the key material passed to
`ReadFromFileAndDecrypt` is exactly the iterated password hash with the salt
appended (`hash ++ salt`), and the key-type argument is exactly
`keyMapping[chainType]`. -/
theorem keypairFromAddress_decrypt_key_material (env : Env) (addr chainType path : String)
    (hb sb : Bytes)
    (hex : env.fileExists (keyFilePath path addr) = true)
    (hh : env.hashPasswordIteratively
        (env.getPassword (promptFor (keyFilePath path addr))) = (hb, sb, none)) :
    Event.readDecryptCall (keyFilePath path addr) (hb ++ sb) (mapIndex keyMapping chainType) ∈
      (KeypairFromAddress env addr chainType path false).events ∧
    ∀ p k t, Event.readDecryptCall p k t ∈
        (KeypairFromAddress env addr chainType path false).events →
      k = hb ++ sb ∧ t = mapIndex keyMapping chainType := by
  constructor
  · simp only [KeypairFromAddress, Bool.false_eq_true, if_false, pswdInitial, hex,
      Bool.true_eq_false]
    simp only [hh]
    split <;> try split
    all_goals simp
  · intro p k t hmem
    simp only [KeypairFromAddress, Bool.false_eq_true, if_false, pswdInitial, hex,
      Bool.true_eq_false] at hmem
    simp only [hh] at hmem
    split at hmem <;> try split at hmem
    all_goals simp at hmem
    all_goals exact ⟨hmem.2.1, hmem.2.2⟩

/-- Concrete instance of `keypairFromAddress_decrypt_key_material`: the sample
store with the correct password; the key material is the derived key with the
salt appended and the key type is `secp256k1`. -/
theorem keypairFromAddress_decrypt_key_material_witness :
    specEnv.fileExists (keyFilePath "keys" "0xABC") = true ∧
    specEnv.hashPasswordIteratively
      (specEnv.getPassword (promptFor (keyFilePath "keys" "0xABC"))) =
      (deriveKey specPassword specSalt, specSalt, none) ∧
    Event.readDecryptCall (keyFilePath "keys" "0xABC")
        (deriveKey specPassword specSalt ++ specSalt) (mapIndex keyMapping "ethereum") ∈
      (KeypairFromAddress specEnv "0xABC" "ethereum" "keys" false).events := by
  have h := keypairFromAddress_decrypt_key_material specEnv "0xABC" "ethereum" "keys"
    (deriveKey specPassword specSalt) specSalt (by decide) (by decide)
  exact ⟨by decide, by decide, h.1⟩

/-- Claim C10: with `insecure = false` and an existing key file, the `var
pswd []byte` nil check is always true, the password is always obtained by
calling `GetPassword`, and no environment variable (in particular not the one
named by `EnvPassword`) is ever consulted by this function. -/
theorem keypairFromAddress_password_via_getPassword (env : Env) (addr chainType path : String)
    (hex : env.fileExists (keyFilePath path addr) = true) :
    pswdInitial = none ∧
    Event.getPasswordCall (promptFor (keyFilePath path addr)) ∈
      (KeypairFromAddress env addr chainType path false).events ∧
    ∀ v, Event.envReadCall v ∉ (KeypairFromAddress env addr chainType path false).events := by
  refine ⟨rfl, ?_, ?_⟩
  · simp only [KeypairFromAddress, Bool.false_eq_true, if_false, pswdInitial, hex,
      Bool.true_eq_false]
    split <;> try split <;> try split
    all_goals simp
  · intro v
    simp only [KeypairFromAddress, Bool.false_eq_true, if_false, pswdInitial, hex,
      Bool.true_eq_false]
    split <;> try split <;> try split
    all_goals simp

/-- Concrete instance of `keypairFromAddress_password_via_getPassword`: on
the sample store, `GetPassword` is called and the `KEYSTORE_PASSWORD`
environment variable named by `EnvPassword` is never read. -/
theorem keypairFromAddress_password_via_getPassword_witness :
    specEnv.fileExists (keyFilePath "keys" "0xABC") = true ∧
    pswdInitial = none ∧
    Event.getPasswordCall (promptFor (keyFilePath "keys" "0xABC")) ∈
      (KeypairFromAddress specEnv "0xABC" "ethereum" "keys" false).events ∧
    Event.envReadCall EnvPassword ∉
      (KeypairFromAddress specEnv "0xABC" "ethereum" "keys" false).events := by
  have h := keypairFromAddress_password_via_getPassword specEnv "0xABC" "ethereum" "keys"
    (by decide)
  exact ⟨by decide, h.1, h.2.1, h.2.2 EnvPassword⟩

set_option maxRecDepth 8192

/-- Claim C2 (code bug, evaluated at a failing input): with the sample store
and a wrong password, `ReadFromFileAndDecrypt` returns `(nil, nil,
IntegrityError)`, and the error branch of `KeypairFromAddress` then calls
`kp.DeleteKeyPair()` on the nil keypair and panics instead of returning
`(nil, nil, err)`. -/
theorem keypairFromAddress_nil_cleanup_panics :
    wrongPwdEnv.readFromFileAndDecrypt (keyFilePath "keys" "0xABC")
        (deriveKey [119, 114, 111, 110, 103] specSalt ++ specSalt) "secp256k1" =
      (none, none, some .integrityError) ∧
    (KeypairFromAddress wrongPwdEnv "0xABC" "ethereum" "keys" false).outcome =
      .panicked "runtime error: invalid memory address or nil pointer dereference" := by
  decide

/-- Claim C7 (code bug, evaluated at a failing input): a chain type with no
registered key-type implementation maps to the empty key-type string, which
`ReadFromFileAndDecrypt` rejects with `UnsupportedKeyType`; but
`KeypairFromAddress` then panics in its nil-keypair cleanup instead of
returning that error. -/
theorem keypairFromAddress_unknown_chainType_panics :
    mapIndex keyMapping "solana" = "" ∧
    specEnv.readFromFileAndDecrypt (keyFilePath "keys" "0xABC")
        (deriveKey specPassword specSalt ++ specSalt) "" =
      (none, none, some (.unsupportedKeyType "")) ∧
    (KeypairFromAddress specEnv "0xABC" "solana" "keys" false).outcome =
      .panicked "runtime error: invalid memory address or nil pointer dereference" := by
  decide

end Keystore



